import Mathlib

/-!
Verification development for the net-gex-deribit repository.

The repository computes an options market's aggregate gamma exposure (GEX)
from a snapshot of Deribit instruments and quotes.  The source contains three
near-duplicate revisions of the same pipeline:

* `src/unnamed/part_002` (and, modulo a `contractSize` factor, `src/index.js`):
  a Black-Scholes per-contract gamma (`calculateGamma`), a dollar conversion
  (`calculateGammaInDollars`), and a fold of all instruments into
  per-expiration buckets (`getGammaData`).  Embedded below in namespace `BS`.
* `src/src/gamma/gamma.service.ts`: the same fold, but the per-contract gamma
  is taken from the venue's order-book greeks, `mark_iv` is divided by 100,
  and instruments failing `openInterest > 0 && markIv > 0 && timeToExpiry > 0`
  are silently dropped.  Embedded below in namespace `Svc`.

The JavaScript code computes with IEEE doubles and transcendental library
functions.  The embedding is parametric in a `LinearOrderedField` together
with a record `Prims` of the primitive math operations used by the source
(`Math.sqrt`, `Math.log`, `Math.exp`, `Math.PI`, `isFinite`, and the
`toFixed(8)` display rounding).  All control flow (guards, option/err
plumbing, fold structure, counters) is embedded exactly; instantiating the
primitives with the real functions over `ℝ` (`realPrims`) gives the idealized
real-number semantics, and instantiating over `ℚ` (`ratPrims`) gives an
executable model used to evaluate concrete runs.

A JavaScript `number` input that may be `NaN`/`undefined` is modelled as an
`Option` value, `none` standing for the missing/NaN case: the source guard
`!x || x <= 0` rejects exactly `none` and the non-positive values.
-/

attribute [local semireducible] Rat.mul Rat.add Rat.sub Rat.inv Rat.ofScientific

namespace NetGex

/-- The primitive floating-point operations used by the source, abstracted.
`isFinite` models JavaScript's `isFinite`; `round8` models
`parseFloat(gamma.toFixed(8))`. -/
structure Prims (R : Type) where
  sqrt : R → R
  log : R → R
  exp : R → R
  pi : R
  isFinite : R → Bool
  round8 : R → R

/-- The real-number instantiation of the primitives: `Math.sqrt`/`log`/`exp`
become the genuine real functions, every real is finite, and display rounding
is dropped (it only affects the displayed `gamma` field, never aggregation). -/
noncomputable def realPrims : Prims ℝ where
  sqrt := Real.sqrt
  log := Real.log
  exp := Real.exp
  pi := Real.pi
  isFinite := fun _ => true
  round8 := fun x => x

/-- An executable rational instantiation used to evaluate the model on
concrete inputs.  The transcendental stand-ins are arbitrary computable
functions; no theorem about the numeric value of a gamma depends on them. -/
def ratPrims : Prims ℚ where
  sqrt := fun x => x
  log := fun x => x
  exp := fun x => x
  pi := 1
  isFinite := fun _ => true
  round8 := fun x => x

variable {R : Type} [LinearOrderedField R]

namespace BS

/-- Body of `calculateGamma` from `src/unnamed/part_002` lines 109-124 after
the guard: compute `d1`, `φ(d1)` and the gamma, and apply the `isFinite`
filter.  `contractSize = 1` is kept from the source. -/
def calculateGammaCore (prim : Prims R) (S K T r sigma : R) : Option R :=
  let sqrtT := prim.sqrt T
  let d1 := (prim.log (S / K) + (r + 0.5 * sigma * sigma) * T) / (sigma * sqrtT)
  let nPrimeD1 := (1 / prim.sqrt (2 * prim.pi)) * prim.exp (-0.5 * d1 * d1)
  let contractSize : R := 1
  let gamma := nPrimeD1 / (S * sigma * sqrtT) * contractSize
  if prim.isFinite gamma then some gamma else none

/-- `calculateGamma` from `src/unnamed/part_002` lines 98-125 (identical to
`src/index.js` lines 129-144 up to the `* contractSize` with
`contractSize = 1`).  An input that is missing or NaN is modelled as `none`;
the source guard `!S || S <= 0 || !K || K <= 0 || !T || T <= 0 || !sigma ||
sigma <= 0` returns `null` exactly on `none` or non-positive inputs (`!x` is
true for `NaN`, `undefined` and `0`, and `0` is also caught by `x <= 0`).
The function is total: the source never throws (its `try` block has no
throwing operation, and the `catch` also returns `null`). -/
def calculateGamma (prim : Prims R) (S K T : Option R) (r : R) (sigma : Option R) :
    Option R :=
  match S, K, T, sigma with
  | some s, some k, some t, some sg =>
      if s ≤ 0 ∨ k ≤ 0 ∨ t ≤ 0 ∨ sg ≤ 0 then none
      else calculateGammaCore prim s k t r sg
  | _, _, _, _ => none

/-- `calculateGammaInDollars` from `src/unnamed/part_002` lines 127-140:
`GEX = OI × Γ × 100 × k × S × (1% × S)` with scaling coefficient `k = 1`,
guarded by `if (!gamma || gamma === 0) return 0`. -/
def calculateGammaInDollars (gamma indexPrice openInterest : R) : R :=
  if gamma = 0 then 0
  else
    let k : R := 1
    let onePercentOfSpot := 0.01 * indexPrice
    openInterest * gamma * 100 * k * indexPrice * onePercentOfSpot

end BS

/-- An instrument as returned by `get_instruments` (the fields destructured by
the source: `instrument_name, strike, expiration_timestamp, option_type,
instrument_id`).  Timestamps are milliseconds, kept in the numeric field `R`
because the source does field arithmetic on them.  `instrument_id` is only
tested for truthiness (gamma.service.ts line 267), so it is a `Bool`. -/
structure InstrumentIn (R : Type) where
  instrument_name : String
  strike : R
  expiration_timestamp : R
  option_type : String
  instrument_id : Bool
  deriving DecidableEq

/-- A book-summary item (quote) as consumed by the source.  Fields read with
a `|| 0` fallback or that may be absent are `Option R` (`none` = missing);
the `volume`/`volume_24h`/`stats.volume` fallback chains are modelled as one
normalized field each, per spec §9. -/
structure Quote (R : Type) where
  mark_price : Option R
  mark_iv : Option R
  open_interest : Option R
  volume_24h : R
  bid_volume : R
  ask_volume : R
  deriving DecidableEq

/-- The per-instrument record pushed into a bucket's `instruments` array. -/
structure InstrRecord (R : Type) where
  instrument_name : String
  strike : R
  option_type : String
  gamma : R
  open_interest : R
  gamma_exposure : R
  gamma_exposure_usd : R
  mark_iv : R
  mark_price : R
  volume_24h : R
  bid_volume : R
  ask_volume : R
  deriving DecidableEq

/-- One expiration bucket (`GammaExpirationData` in the source). -/
structure GammaExpirationData (R : Type) where
  total_gamma : R
  total_gamma_usd : R
  call_gamma : R
  call_gamma_usd : R
  put_gamma : R
  put_gamma_usd : R
  instruments : List (InstrRecord R)
  deriving DecidableEq

/-- The freshly initialized bucket (all totals 0, no instruments). -/
def emptyBucket : GammaExpirationData R :=
  { total_gamma := 0, total_gamma_usd := 0, call_gamma := 0, call_gamma_usd := 0,
    put_gamma := 0, put_gamma_usd := 0, instruments := [] }

/-- Mutable state of the processing loop: the `gammaByExpiration` map
(modelled as an insertion-ordered association list, mirroring a JS object
keyed by date strings) and the two counters. -/
structure RunState (R : Type) where
  gammaByExpiration : List (String × GammaExpirationData R)
  processedCount : Nat
  skippedCount : Nat
  deriving DecidableEq

/-- The loop's initial state. -/
def initState : RunState R := { gammaByExpiration := [], processedCount := 0, skippedCount := 0 }

/-- Inputs of one `getGammaData` run that the source obtains from the
network or the clock: the index price, `Date.now()`, the risk-free rate
(the source sets `r = 0`), the `marketDataMap` built from the book summary,
the day-truncation `new Date(ts).toISOString().split('T')[0]` (modelled as an
uninterpreted key function — no claim depends on calendar arithmetic), and the
order-book greeks gamma per instrument name used by the gamma.service.ts
revision (`orderBookData.greeks?.gamma`, with fetch failure already mapped
to 0 as in the source). -/
structure Config (R : Type) where
  indexPrice : R
  now : R
  r : R
  quotes : List (String × Quote R)
  dateKey : R → String
  gammaApi : String → R

/-- `marketDataMap[instrument_name]`: first quote with the given name. -/
def lookupQuote (quotes : List (String × Quote R)) (name : String) : Option (Quote R) :=
  match quotes with
  | [] => none
  | (n, q) :: rest => if n = name then some q else lookupQuote rest name

/-- `if (!map[key]) map[key] = dflt; f(map[key])` on the association list:
apply `f` to the entry at `key`, inserting `dflt` first when absent. -/
def updateAssoc (m : List (String × GammaExpirationData R)) (key : String)
    (f : GammaExpirationData R → GammaExpirationData R) (dflt : GammaExpirationData R) :
    List (String × GammaExpirationData R) :=
  match m with
  | [] => [(key, f dflt)]
  | (k, v) :: rest =>
      if k = key then (k, f v) :: rest else (k, v) :: updateAssoc rest key f dflt

/-- The bucket update common to all revisions: `total_gamma += ge;
total_gamma_usd += geUSD; if (option_type === 'call') {call_* += ...} else if
(option_type === 'put') {put_* += ...}; instruments.push(record)`.  The
source's `else if` is rendered as two independent conditionals; they agree
because no string equals both "call" and "put". -/
def addToBucket (b : GammaExpirationData R) (option_type : String)
    (gammaExposure gammaExposureUSD : R) (record : InstrRecord R) :
    GammaExpirationData R :=
  { total_gamma := b.total_gamma + gammaExposure,
    total_gamma_usd := b.total_gamma_usd + gammaExposureUSD,
    call_gamma := if option_type = "call" then b.call_gamma + gammaExposure else b.call_gamma,
    call_gamma_usd :=
      if option_type = "call" then b.call_gamma_usd + gammaExposureUSD else b.call_gamma_usd,
    put_gamma := if option_type = "put" then b.put_gamma + gammaExposure else b.put_gamma,
    put_gamma_usd :=
      if option_type = "put" then b.put_gamma_usd + gammaExposureUSD else b.put_gamma_usd,
    instruments := b.instruments ++ [record] }

/-- The first instrument record of the first expiration bucket of a run
state; used to inspect concrete runs. -/
def firstInstrumentOf (st : RunState R) : Option (InstrRecord R) :=
  match st.gammaByExpiration with
  | (_, b) :: _ => b.instruments.head?
  | [] => none

namespace BS

/-- The body of the `instruments.forEach` loop of `getGammaData` in
`src/unnamed/part_002` lines 183-267: look up the quote (missing → skip),
compute `S`, `K`, `T`, `sigma`, call `calculateGamma` (null → skip), then
count the instrument as processed, compute both exposures, and fold the
record into its expiration bucket.  The record's `mark_iv` field stores the
raw `sigma` (the source stores `mark_iv: sigma`); since a push only happens
when `calculateGamma` succeeded, `sigma` is the quote's `mark_iv` value and
`Option.getD 0` recovers it exactly. -/
def processInstrument (prim : Prims R) (cfg : Config R) (st : RunState R)
    (instrument : InstrumentIn R) : RunState R :=
  match lookupQuote cfg.quotes instrument.instrument_name with
  | none => { st with skippedCount := st.skippedCount + 1 }
  | some marketData =>
      let S := cfg.indexPrice
      let K := instrument.strike
      let T := (instrument.expiration_timestamp - cfg.now) / (1000 * 60 * 60 * 24 * 365)
      let sigma := marketData.mark_iv
      match calculateGamma prim (some S) (some K) (some T) cfg.r sigma with
      | none => { st with skippedCount := st.skippedCount + 1 }
      | some gamma =>
          let openInterest := marketData.open_interest.getD 0
          let contractSize : R := 1
          let gammaExposure := gamma * openInterest * contractSize
          let gammaExposureUSD := calculateGammaInDollars gamma cfg.indexPrice openInterest
          let expirationDate := cfg.dateKey instrument.expiration_timestamp
          let record : InstrRecord R :=
            { instrument_name := instrument.instrument_name,
              strike := instrument.strike,
              option_type := instrument.option_type,
              gamma := prim.round8 gamma,
              open_interest := openInterest,
              gamma_exposure := gammaExposure,
              gamma_exposure_usd := gammaExposureUSD,
              mark_iv := marketData.mark_iv.getD 0,
              mark_price := marketData.mark_price.getD 0,
              volume_24h := marketData.volume_24h,
              bid_volume := marketData.bid_volume,
              ask_volume := marketData.ask_volume }
          { st with
            processedCount := st.processedCount + 1,
            gammaByExpiration :=
              updateAssoc st.gammaByExpiration expirationDate
                (fun b => addToBucket b instrument.option_type gammaExposure
                  gammaExposureUSD record)
                emptyBucket }

/-- Whether the part_002 loop counts the given instrument as processed:
its quote exists and `calculateGamma` on its inputs is non-null. -/
def processes (prim : Prims R) (cfg : Config R) (instrument : InstrumentIn R) : Bool :=
  match lookupQuote cfg.quotes instrument.instrument_name with
  | none => false
  | some marketData =>
      (calculateGamma prim (some cfg.indexPrice) (some instrument.strike)
          (some ((instrument.expiration_timestamp - cfg.now) / (1000 * 60 * 60 * 24 * 365)))
          cfg.r marketData.mark_iv).isSome

/-- The result shape returned on success by `getGammaData`
(`src/src/types/gamma.types.ts`): the buckets and the index price. -/
structure GammaResponse (R : Type) where
  gammaByExpiration : List (String × GammaExpirationData R)
  indexPrice : R

/-- `getGammaData` of `src/unnamed/part_002` lines 142-288, from the point
where the three fetches have succeeded: fold every instrument through the
loop body, and afterwards (lines 271-276) throw
`'No expiration dates found in response'` when `Object.keys(gammaByExpiration)`
is empty, otherwise return the buckets with the index price. -/
def getGammaData (prim : Prims R) (cfg : Config R) (instruments : List (InstrumentIn R)) :
    Except String (GammaResponse R) :=
  let final := List.foldl (processInstrument prim cfg) initState instruments
  let sortedExpirations := final.gammaByExpiration.map Prod.fst
  if sortedExpirations.length = 0 then
    Except.error "No expiration dates found in response"
  else
    Except.ok { gammaByExpiration := final.gammaByExpiration, indexPrice := cfg.indexPrice }

end BS

namespace Svc

/-- The body of the per-instrument handler of `GammaService.getGammaData` in
`src/src/gamma/gamma.service.ts` lines 254-356: look up the quote (missing →
skip), take the order-book greeks gamma (`cfg.gammaApi`, 0 when
`instrument_id` is falsy), compute `openInterest`, `markIv = mark_iv / 100`
and `timeToExpiry`, and only when all three are positive compute
`gex = OI × γ × 100`, `gexUSD = gex × indexPrice`, the signed `netGEX`, the
absolute exposures, bump `processedCount` and fold the record in.  When the
positivity test fails the state is returned unchanged: no counter moves. -/
def processInstrument (cfg : Config R) (st : RunState R) (instrument : InstrumentIn R) :
    RunState R :=
  match lookupQuote cfg.quotes instrument.instrument_name with
  | none => { st with skippedCount := st.skippedCount + 1 }
  | some marketData =>
      let gammaFromAPI := if instrument.instrument_id then
        cfg.gammaApi instrument.instrument_name else 0
      let openInterest := marketData.open_interest.getD 0
      let markIv := marketData.mark_iv.getD 0 / 100
      let timeToExpiry :=
        (instrument.expiration_timestamp - cfg.now) / (1000 * 60 * 60 * 24 * 365)
      if 0 < openInterest ∧ 0 < markIv ∧ 0 < timeToExpiry then
        let gammaFromOrderBook := gammaFromAPI
        let gex := openInterest * gammaFromOrderBook * 100
        let gexUSD := gex * cfg.indexPrice
        let gammaExposure := |gex|
        let gammaExposureUSD := |gexUSD|
        let expirationDate := cfg.dateKey instrument.expiration_timestamp
        let record : InstrRecord R :=
          { instrument_name := instrument.instrument_name,
            strike := instrument.strike,
            option_type := instrument.option_type,
            gamma := gammaFromOrderBook,
            open_interest := openInterest,
            gamma_exposure := gammaExposure,
            gamma_exposure_usd := gammaExposureUSD,
            mark_iv := markIv,
            mark_price := marketData.mark_price.getD 0,
            volume_24h := marketData.volume_24h,
            bid_volume := marketData.bid_volume,
            ask_volume := marketData.ask_volume }
        { st with
          processedCount := st.processedCount + 1,
          gammaByExpiration :=
            updateAssoc st.gammaByExpiration expirationDate
              (fun b => addToBucket b instrument.option_type gammaExposure
                gammaExposureUSD record)
              emptyBucket }
      else st

/-- Whether the gamma.service.ts loop counts the instrument as processed:
quote present and `openInterest > 0 && markIv > 0 && timeToExpiry > 0`. -/
def processes (cfg : Config R) (instrument : InstrumentIn R) : Bool :=
  match lookupQuote cfg.quotes instrument.instrument_name with
  | none => false
  | some marketData =>
      decide (0 < marketData.open_interest.getD 0) &&
      decide (0 < marketData.mark_iv.getD 0 / 100) &&
      decide
        (0 < (instrument.expiration_timestamp - cfg.now) / (1000 * 60 * 60 * 24 * 365))

end Svc

/-- The sum law for one bucket: totals are the call and put parts, in both
contract and dollar units. -/
def bucketSumLaw (b : GammaExpirationData R) : Prop :=
  b.total_gamma = b.call_gamma + b.put_gamma ∧
  b.total_gamma_usd = b.call_gamma_usd + b.put_gamma_usd

instance (b : GammaExpirationData R) : Decidable (bucketSumLaw b) := by
  unfold bucketSumLaw
  infer_instance

/-- The sum law holds in every bucket of the state. -/
def sumLawOk (st : RunState R) : Prop :=
  ∀ p ∈ st.gammaByExpiration, bucketSumLaw p.2

instance (st : RunState R) : Decidable (sumLawOk st) := by
  unfold sumLawOk
  infer_instance

theorem addToBucket_sumLaw {b : GammaExpirationData R} {ot : String} {ge geUSD : R}
    {record : InstrRecord R} (hb : bucketSumLaw b) (hot : ot = "call" ∨ ot = "put") :
    bucketSumLaw (addToBucket b ot ge geUSD record) := by
  obtain ⟨h1, h2⟩ := hb
  have hcp : ¬(("call" : String) = "put") := by decide
  have hpc : ¬(("put" : String) = "call") := by decide
  unfold bucketSumLaw addToBucket
  rcases hot with h | h <;> subst h
  · constructor
    · simp only [if_pos rfl, if_neg hcp, if_true]
      rw [h1]
      ring
    · simp only [if_pos rfl, if_neg hcp, if_true]
      rw [h2]
      ring
  · constructor
    · simp only [if_pos rfl, if_neg hpc, if_true]
      rw [h1]
      ring
    · simp only [if_pos rfl, if_neg hpc, if_true]
      rw [h2]
      ring

theorem emptyBucket_sumLaw : bucketSumLaw (emptyBucket (R := R)) := by
  constructor <;> simp [emptyBucket]

omit [LinearOrderedField R] in
theorem updateAssoc_forall {P : GammaExpirationData R → Prop}
    {m : List (String × GammaExpirationData R)} {key : String}
    {f : GammaExpirationData R → GammaExpirationData R} {dflt : GammaExpirationData R}
    (hm : ∀ p ∈ m, P p.2) (hf : ∀ b, P b → P (f b)) (hd : P (f dflt)) :
    ∀ p ∈ updateAssoc m key f dflt, P p.2 := by
  induction m with
  | nil =>
    intro p hp
    simp only [updateAssoc, List.mem_singleton] at hp
    rw [hp]
    exact hd
  | cons kv rest ih =>
    obtain ⟨k, v⟩ := kv
    intro p hp
    simp only [updateAssoc] at hp
    by_cases hk : k = key
    · rw [if_pos hk] at hp
      rcases List.mem_cons.mp hp with h | h
      · rw [h]
        exact hf v (hm (k, v) (List.mem_cons_self _ _))
      · exact hm p (List.mem_cons_of_mem _ h)
    · rw [if_neg hk] at hp
      rcases List.mem_cons.mp hp with h | h
      · rw [h]
        exact hm (k, v) (List.mem_cons_self _ _)
      · exact ih (fun q hq => hm q (List.mem_cons_of_mem _ hq)) p h

theorem BS.bsStep_sumLaw (prim : Prims R) (cfg : Config R) {st : RunState R}
    (instrument : InstrumentIn R) (hst : sumLawOk st)
    (hot : BS.processes prim cfg instrument = true →
      instrument.option_type = "call" ∨ instrument.option_type = "put") :
    sumLawOk (BS.processInstrument prim cfg st instrument) := by
  simp only [BS.processInstrument]
  split
  · exact hst
  next marketData hq =>
    split
    · exact hst
    next gamma hg =>
      have hot' : instrument.option_type = "call" ∨ instrument.option_type = "put" := by
        apply hot
        unfold BS.processes
        rw [hq]
        simp only [hg, Option.isSome_some]
      intro p hp
      refine updateAssoc_forall hst (fun b hb => addToBucket_sumLaw hb hot')
        (addToBucket_sumLaw emptyBucket_sumLaw hot') p hp

theorem Svc.svcStep_sumLaw (cfg : Config R) {st : RunState R}
    (instrument : InstrumentIn R) (hst : sumLawOk st)
    (hot : Svc.processes cfg instrument = true →
      instrument.option_type = "call" ∨ instrument.option_type = "put") :
    sumLawOk (Svc.processInstrument cfg st instrument) := by
  simp only [Svc.processInstrument]
  split
  · exact hst
  next marketData hq =>
    split
    next hc =>
      have hot' : instrument.option_type = "call" ∨ instrument.option_type = "put" := by
        apply hot
        unfold Svc.processes
        rw [hq]
        simp only [Bool.and_eq_true, decide_eq_true_eq]
        exact ⟨⟨hc.1, hc.2.1⟩, hc.2.2⟩
      intro p hp
      refine updateAssoc_forall hst (fun b hb => addToBucket_sumLaw hb hot')
        (addToBucket_sumLaw emptyBucket_sumLaw hot') p hp
    next hc => exact hst

theorem BS.bsFoldl_sumLaw (prim : Prims R) (cfg : Config R)
    (insts : List (InstrumentIn R)) :
    ∀ st : RunState R, sumLawOk st →
      (∀ i ∈ insts, BS.processes prim cfg i = true →
        i.option_type = "call" ∨ i.option_type = "put") →
      sumLawOk (List.foldl (BS.processInstrument prim cfg) st insts) := by
  induction insts with
  | nil => intro st h _; exact h
  | cons i rest ih =>
    intro st h hall
    simp only [List.foldl_cons]
    exact ih _ (BS.bsStep_sumLaw prim cfg i h (hall i (List.mem_cons_self _ _)))
      (fun j hj => hall j (List.mem_cons_of_mem _ hj))

theorem Svc.svcFoldl_sumLaw (cfg : Config R) (insts : List (InstrumentIn R)) :
    ∀ st : RunState R, sumLawOk st →
      (∀ i ∈ insts, Svc.processes cfg i = true →
        i.option_type = "call" ∨ i.option_type = "put") →
      sumLawOk (List.foldl (Svc.processInstrument cfg) st insts) := by
  induction insts with
  | nil => intro st h _; exact h
  | cons i rest ih =>
    intro st h hall
    simp only [List.foldl_cons]
    exact ih _ (Svc.svcStep_sumLaw cfg i h (hall i (List.mem_cons_self _ _)))
      (fun j hj => hall j (List.mem_cons_of_mem _ hj))

theorem initState_sumLaw : sumLawOk (initState (R := R)) := by
  intro p hp
  simp [initState] at hp

/-- C1: in both embedded revisions of the fold (`part_002` and
`gamma.service.ts`), after folding all instruments, every expiration bucket
satisfies `total_gamma = call_gamma + put_gamma` and
`total_gamma_usd = call_gamma_usd + put_gamma_usd` exactly, provided every
instrument the run counts as processed has option_type "call" or "put". -/
theorem C1_bucket_sum_law (prim : Prims R) (cfg : Config R)
    (insts : List (InstrumentIn R))
    (hBS : ∀ i ∈ insts, BS.processes prim cfg i = true →
      i.option_type = "call" ∨ i.option_type = "put")
    (hSvc : ∀ i ∈ insts, Svc.processes cfg i = true →
      i.option_type = "call" ∨ i.option_type = "put") :
    sumLawOk (List.foldl (BS.processInstrument prim cfg) initState insts) ∧
    sumLawOk (List.foldl (Svc.processInstrument cfg) initState insts) :=
  ⟨BS.bsFoldl_sumLaw prim cfg insts initState initState_sumLaw hBS,
   Svc.svcFoldl_sumLaw cfg insts initState initState_sumLaw hSvc⟩

/-- A concrete quote used to evaluate the model on small runs. -/
def wQuote : Quote ℚ :=
  { mark_price := some 1, mark_iv := some 65, open_interest := some 10,
    volume_24h := 0, bid_volume := 0, ask_volume := 0 }

/-- A concrete run configuration (index price 100, quote joined by name). -/
def wCfg : Config ℚ :=
  { indexPrice := 100, now := 0, r := 0, quotes := [("BTC-TEST", wQuote)],
    dateKey := fun _ => "2026-06-26", gammaApi := fun _ => 1 }

/-- A concrete call instrument expiring one year after `now`. -/
def wInst : InstrumentIn ℚ :=
  { instrument_name := "BTC-TEST", strike := 100,
    expiration_timestamp := 1000 * 60 * 60 * 24 * 365, option_type := "call",
    instrument_id := true }

/-- C1 witness: the theorem applied to a concrete one-instrument run. -/
theorem C1_witness :
    ((∀ i ∈ [wInst], BS.processes ratPrims wCfg i = true →
        i.option_type = "call" ∨ i.option_type = "put") ∧
      (∀ i ∈ [wInst], Svc.processes wCfg i = true →
        i.option_type = "call" ∨ i.option_type = "put")) ∧
    (sumLawOk (List.foldl (BS.processInstrument ratPrims wCfg) initState [wInst]) ∧
      sumLawOk (List.foldl (Svc.processInstrument wCfg) initState [wInst])) :=
  ⟨⟨by decide, by decide⟩,
    C1_bucket_sum_law ratPrims wCfg [wInst] (by decide) (by decide)⟩

theorem BS.processes_eq_false_of_none {prim : Prims R} {cfg : Config R}
    {instrument : InstrumentIn R}
    (hq : lookupQuote cfg.quotes instrument.instrument_name = none) :
    BS.processes prim cfg instrument = false := by
  unfold BS.processes
  rw [hq]

theorem BS.processes_eq_of_some {prim : Prims R} {cfg : Config R}
    {instrument : InstrumentIn R} {marketData : Quote R}
    (hq : lookupQuote cfg.quotes instrument.instrument_name = some marketData) :
    BS.processes prim cfg instrument =
      (BS.calculateGamma prim (some cfg.indexPrice) (some instrument.strike)
        (some ((instrument.expiration_timestamp - cfg.now) / (1000 * 60 * 60 * 24 * 365)))
        cfg.r marketData.mark_iv).isSome := by
  unfold BS.processes
  rw [hq]

theorem BS.lookup_ne_none_of_processes {prim : Prims R} {cfg : Config R}
    {instrument : InstrumentIn R} (h : BS.processes prim cfg instrument = true) :
    (lookupQuote cfg.quotes instrument.instrument_name).isNone = false := by
  cases hq : lookupQuote cfg.quotes instrument.instrument_name with
  | none => rw [BS.processes_eq_false_of_none hq] at h; exact absurd h (by simp)
  | some marketData => rfl

/-- Each loop step of the part_002 fold moves exactly one counter: the
processed counter when the instrument has a quote and a non-null gamma, and
the skipped counter otherwise. -/
theorem BS.processInstrument_counts (prim : Prims R) (cfg : Config R) (st : RunState R)
    (instrument : InstrumentIn R) :
    (BS.processInstrument prim cfg st instrument).processedCount =
      st.processedCount + (if BS.processes prim cfg instrument then 1 else 0) ∧
    (BS.processInstrument prim cfg st instrument).skippedCount =
      st.skippedCount + (if BS.processes prim cfg instrument then 0 else 1) := by
  simp only [BS.processInstrument]
  split
  next hq =>
    rw [BS.processes_eq_false_of_none hq]
    simp
  next marketData hq =>
    rw [BS.processes_eq_of_some hq]
    split
    next hg =>
      rw [hg]
      simp
    next gamma hg =>
      rw [hg]
      simp

theorem BS.foldl_counts (prim : Prims R) (cfg : Config R) (insts : List (InstrumentIn R)) :
    ∀ st : RunState R,
      (List.foldl (BS.processInstrument prim cfg) st insts).processedCount =
        st.processedCount + insts.countP (fun i => BS.processes prim cfg i) ∧
      (List.foldl (BS.processInstrument prim cfg) st insts).skippedCount =
        st.skippedCount + insts.countP (fun i => !(BS.processes prim cfg i)) := by
  induction insts with
  | nil => intro st; simp
  | cons i rest ih =>
    intro st
    obtain ⟨hp, hs⟩ := BS.processInstrument_counts prim cfg st i
    obtain ⟨ihp, ihs⟩ := ih (BS.processInstrument prim cfg st i)
    constructor
    · rw [List.foldl_cons, ihp, hp, List.countP_cons]
      by_cases h : BS.processes prim cfg i <;> simp [h] <;> omega
    · rw [List.foldl_cons, ihs, hs, List.countP_cons]
      by_cases h : BS.processes prim cfg i <;> simp [h] <;> omega

/-- C9: in the part_002 fold, when every instrument either has no matching
quote or has a quote with pricing inputs on which `calculateGamma` succeeds,
the final skipped count is exactly the number M of instruments without a
matching quote, and the final processed count is exactly N − M. -/
theorem C9_skip_accounting (prim : Prims R) (cfg : Config R)
    (insts : List (InstrumentIn R))
    (h : ∀ i ∈ insts, lookupQuote cfg.quotes i.instrument_name = none ∨
      BS.processes prim cfg i = true) :
    (List.foldl (BS.processInstrument prim cfg) initState insts).skippedCount =
      insts.countP (fun i => (lookupQuote cfg.quotes i.instrument_name).isNone) ∧
    (List.foldl (BS.processInstrument prim cfg) initState insts).processedCount =
      insts.length -
        insts.countP (fun i => (lookupQuote cfg.quotes i.instrument_name).isNone) := by
  obtain ⟨hp, hs⟩ := BS.foldl_counts prim cfg insts initState
  have hcongr : insts.countP (fun i => !(BS.processes prim cfg i)) =
      insts.countP (fun i => (lookupQuote cfg.quotes i.instrument_name).isNone) := by
    apply List.countP_congr
    intro i hi
    rcases h i hi with hq | hpr
    · rw [BS.processes_eq_false_of_none hq, hq]
      simp
    · rw [hpr, BS.lookup_ne_none_of_processes hpr]
      simp
  have hlen := List.length_eq_countP_add_countP
    (fun i => BS.processes prim cfg i) (l := insts)
  have hnot : insts.countP (fun i => ¬(BS.processes prim cfg i)) =
      insts.countP (fun i => !(BS.processes prim cfg i)) := by
    apply List.countP_congr
    intro i hi
    by_cases hb : BS.processes prim cfg i <;> simp [hb]
  constructor
  · rw [hs, hcongr]
    simp [initState]
  · rw [hp]
    simp only [initState]
    omega

/-- A quote-less instrument name list and a joined one: two instruments, of
which exactly one has a matching quote. -/
def w9Insts : List (InstrumentIn ℚ) :=
  [{ instrument_name := "BTC-NOQUOTE", strike := 100,
     expiration_timestamp := 1000 * 60 * 60 * 24 * 365, option_type := "put",
     instrument_id := true }, wInst]

/-- C9 witness: on a concrete two-instrument chain with one unjoinable
instrument the run reports one skip and one processed instrument. -/
theorem C9_witness :
    ((∀ i ∈ w9Insts, lookupQuote wCfg.quotes i.instrument_name = none ∨
        BS.processes ratPrims wCfg i = true) ∧
      (List.foldl (BS.processInstrument ratPrims wCfg) initState w9Insts).skippedCount =
        w9Insts.countP (fun i => (lookupQuote wCfg.quotes i.instrument_name).isNone) ∧
      (List.foldl (BS.processInstrument ratPrims wCfg) initState w9Insts).processedCount =
        w9Insts.length -
          w9Insts.countP (fun i => (lookupQuote wCfg.quotes i.instrument_name).isNone)) :=
  ⟨by decide, C9_skip_accounting ratPrims wCfg w9Insts (by decide)⟩

theorem BS.calculateGamma_none_of_T_nonpos (prim : Prims R) (S K : Option R) (r : R)
    (sigma : Option R) {t : R} (ht : t ≤ 0) :
    BS.calculateGamma prim S K (some t) r sigma = none := by
  cases S with
  | none => rfl
  | some s =>
    cases K with
    | none => rfl
    | some k =>
      cases sigma with
      | none => rfl
      | some sg =>
        simp only [BS.calculateGamma]
        rw [if_pos (Or.inr (Or.inr (Or.inl ht)))]

theorem BS.processes_false_of_T_nonpos (prim : Prims R) (cfg : Config R)
    (instrument : InstrumentIn R)
    (ht : (instrument.expiration_timestamp - cfg.now) / (1000 * 60 * 60 * 24 * 365) ≤ 0) :
    BS.processes prim cfg instrument = false := by
  cases hq : lookupQuote cfg.quotes instrument.instrument_name with
  | none => exact BS.processes_eq_false_of_none hq
  | some marketData =>
    rw [BS.processes_eq_of_some hq,
      BS.calculateGamma_none_of_T_nonpos prim _ _ _ _ ht]
    rfl

theorem BS.processInstrument_buckets_of_skip (prim : Prims R) (cfg : Config R)
    (st : RunState R) (instrument : InstrumentIn R)
    (h : BS.processes prim cfg instrument = false) :
    (BS.processInstrument prim cfg st instrument).gammaByExpiration =
      st.gammaByExpiration := by
  simp only [BS.processInstrument]
  split
  · rfl
  next marketData hq =>
    split
    · rfl
    next gamma hg =>
      rw [BS.processes_eq_of_some hq, hg] at h
      exact absurd h (by simp)

theorem BS.foldl_buckets_of_all_expired (prim : Prims R) (cfg : Config R)
    (insts : List (InstrumentIn R)) :
    ∀ st : RunState R,
      (∀ i ∈ insts,
        (i.expiration_timestamp - cfg.now) / (1000 * 60 * 60 * 24 * 365) ≤ 0) →
      (List.foldl (BS.processInstrument prim cfg) st insts).gammaByExpiration =
        st.gammaByExpiration := by
  induction insts with
  | nil => intro st _; rfl
  | cons i rest ih =>
    intro st hall
    rw [List.foldl_cons,
      ih (BS.processInstrument prim cfg st i)
        (fun j hj => hall j (List.mem_cons_of_mem _ hj)),
      BS.processInstrument_buckets_of_skip prim cfg st i
        (BS.processes_false_of_T_nonpos prim cfg i (hall i (List.mem_cons_self _ _)))]

/-- C8: when every instrument in the chain has a non-positive time to expiry
(`T ≤ 0`, the all-expired chain), the part_002 `getGammaData` ends with zero
expiration buckets and raises the `'No expiration dates found in response'`
error instead of returning an empty success. -/
theorem C8_all_expired_errors (prim : Prims R) (cfg : Config R)
    (insts : List (InstrumentIn R))
    (h : ∀ i ∈ insts,
      (i.expiration_timestamp - cfg.now) / (1000 * 60 * 60 * 24 * 365) ≤ 0) :
    BS.getGammaData prim cfg insts =
      Except.error "No expiration dates found in response" := by
  simp only [BS.getGammaData]
  rw [BS.foldl_buckets_of_all_expired prim cfg insts initState h]
  rfl

/-- An already-expired instrument: its expiry equals `now`, so `T = 0`. -/
def w8Inst : InstrumentIn ℚ :=
  { instrument_name := "BTC-TEST", strike := 100, expiration_timestamp := 0,
    option_type := "call", instrument_id := true }

/-- C8 witness: the theorem applied to a concrete all-expired chain. -/
theorem C8_witness :
    ((∀ i ∈ [w8Inst],
        (i.expiration_timestamp - wCfg.now) / (1000 * 60 * 60 * 24 * 365) ≤ 0) ∧
      BS.getGammaData ratPrims wCfg [w8Inst] =
        Except.error "No expiration dates found in response") :=
  ⟨by decide, C8_all_expired_errors ratPrims wCfg [w8Inst] (by decide)⟩

/-- C10: in the gamma.service.ts loop, an instrument that has a matching
quote but fails the `openInterest > 0 && markIv > 0 && timeToExpiry > 0`
test leaves the run state completely unchanged — it joins no expiration
bucket and moves neither the processed nor the skipped counter, so the two
counters need not add up to the number of input instruments. -/
theorem C10_gated_instrument_dropped (cfg : Config R) (st : RunState R)
    (instrument : InstrumentIn R) (marketData : Quote R)
    (hq : lookupQuote cfg.quotes instrument.instrument_name = some marketData)
    (hc : ¬(0 < marketData.open_interest.getD 0 ∧
        0 < marketData.mark_iv.getD 0 / 100 ∧
        0 < (instrument.expiration_timestamp - cfg.now) / (1000 * 60 * 60 * 24 * 365))) :
    Svc.processInstrument cfg st instrument = st := by
  simp only [Svc.processInstrument]
  split
  next hq0 => rw [hq0] at hq; exact absurd hq (by simp)
  next marketData2 hq2 =>
    rw [hq2] at hq
    injection hq with hq
    subst hq
    split
    next hcond => exact absurd hcond hc
    next => rfl

/-- A quote whose open interest is zero. -/
def w10Quote : Quote ℚ :=
  { mark_price := some 1, mark_iv := some 65, open_interest := some 0,
    volume_24h := 0, bid_volume := 0, ask_volume := 0 }

/-- A configuration joining `wInst`'s name to the zero-open-interest quote. -/
def w10Cfg : Config ℚ :=
  { indexPrice := 100, now := 0, r := 0, quotes := [("BTC-TEST", w10Quote)],
    dateKey := fun _ => "2026-06-26", gammaApi := fun _ => 1 }

/-- C10 witness: the theorem applied to a concrete gated instrument. -/
theorem C10_witness :
    ((lookupQuote w10Cfg.quotes wInst.instrument_name = some w10Quote ∧
        ¬(0 < w10Quote.open_interest.getD 0 ∧
          0 < w10Quote.mark_iv.getD 0 / 100 ∧
          0 < (wInst.expiration_timestamp - w10Cfg.now) / (1000 * 60 * 60 * 24 * 365))) ∧
      Svc.processInstrument w10Cfg initState wInst = initState) :=
  ⟨⟨by decide, by decide⟩,
    C10_gated_instrument_dropped w10Cfg initState wInst w10Quote (by decide) (by decide)⟩

/-- C7 (code_bug evidence): on a joined quote carrying `mark_iv = 65`
(Deribit quotes implied volatility in percent, as the conversion comment in
gamma.service.ts line 280 records), the part_002 loop passes `sigma = 65`
to `calculateGamma` unconverted and stores `mark_iv = 65` on the produced
record, while the gamma.service.ts loop stores the decimal `65 / 100`; the
raw percentage is not the decimal the spec requires. -/
theorem C7_mark_iv_passed_unconverted :
    ((firstInstrumentOf (BS.processInstrument ratPrims wCfg initState wInst)).map
        InstrRecord.mark_iv) = some 65 ∧
    ((firstInstrumentOf (Svc.processInstrument wCfg initState wInst)).map
        InstrRecord.mark_iv) = some (65 / 100) ∧
    (65 : ℚ) ≠ 65 / 100 := by
  refine ⟨by decide, by decide, by decide⟩

/-- C4 counterexample: a processed instrument of the gamma.service.ts
revision whose dollar exposure is `OI × γ × 100 × spot` — at open interest 1,
order-book gamma 1 and spot 1 this is 100, while the claimed formula
`OI × γ × 100 × spot × (0.01 × spot)` gives 1. -/
def w4Quote : Quote ℚ :=
  { mark_price := some 1, mark_iv := some 100, open_interest := some 1,
    volume_24h := 0, bid_volume := 0, ask_volume := 0 }

/-- Configuration with index price 1 joining the C4 quote. -/
def w4Cfg : Config ℚ :=
  { indexPrice := 1, now := 0, r := 0, quotes := [("BTC-C4", w4Quote)],
    dateKey := fun _ => "2026-06-26", gammaApi := fun _ => 1 }

/-- The instrument processed in the C4 counterexample run. -/
def w4Inst : InstrumentIn ℚ :=
  { instrument_name := "BTC-C4", strike := 1,
    expiration_timestamp := 1000 * 60 * 60 * 24 * 365, option_type := "call",
    instrument_id := true }

/-- C4 counterexample: the gamma.service.ts revision processes the
instrument (`processedCount = 1`) but records a dollar exposure of 100 where
the claimed convention yields 1. -/
theorem C4_counterexample :
    (Svc.processInstrument w4Cfg initState w4Inst).processedCount = 1 ∧
    ((firstInstrumentOf (Svc.processInstrument w4Cfg initState w4Inst)).map
        InstrRecord.gamma_exposure_usd) = some 100 ∧
    ((firstInstrumentOf (Svc.processInstrument w4Cfg initState w4Inst)).map
        (fun record => record.open_interest * record.gamma * 100 * w4Cfg.indexPrice *
          (0.01 * w4Cfg.indexPrice))) = some 1 ∧
    (100 : ℚ) ≠ 1 := by
  refine ⟨by decide, by decide, by decide, by decide⟩

/-- C4 (amended): in the part_002 revision — the convention the spec
designates as canonical — `calculateGammaInDollars` returns exactly
`openInterest × gamma × 100 × spot × (0.01 × spot)` for every input, the
`gamma = 0` early return included; `processInstrument` computes every
processed record's `gamma_exposure_usd` by this function. -/
theorem C4_dollar_exposure_formula (gamma indexPrice openInterest : R) :
    BS.calculateGammaInDollars gamma indexPrice openInterest =
      openInterest * gamma * 100 * indexPrice * (0.01 * indexPrice) := by
  simp only [BS.calculateGammaInDollars]
  split
  next h => rw [h]; ring
  next h => ring

/-- The Black-Scholes `d1`, transcribed from the spec's words (§4.2):
`d1 = (ln(spot/strike) + (r + 0.5·σ²)·T) / (σ·√T)`.  Spec-side definition,
kept separate from the source embedding for the refinement claim C6. -/
noncomputable def specD1 (spot strike T r sigma : ℝ) : ℝ :=
  (Real.log (spot / strike) + (r + 0.5 * sigma ^ 2) * T) / (sigma * Real.sqrt T)

/-- The standard normal density, transcribed from the spec's words (§4.2):
`φ(x) = (1/√(2π))·e^(−x²/2)`.  Spec-side definition for claim C6. -/
noncomputable def specPhi (x : ℝ) : ℝ :=
  (1 / Real.sqrt (2 * Real.pi)) * Real.exp (-x ^ 2 / 2)

/-- The spec's gamma (§4.2): `gamma = φ(d1) / (spot · σ · √T)`.  Spec-side
definition for claim C6. -/
noncomputable def specGamma (spot strike T r sigma : ℝ) : ℝ :=
  specPhi (specD1 spot strike T r sigma) / (spot * sigma * Real.sqrt T)

/-- C2: for every combination of inputs, `calculateGamma` is total (it is a
Lean function, mirroring that the source never throws) and (a) returns `null`
whenever any of spot/strike/T/volatility is missing (`none`, modelling
NaN/undefined) or non-positive, and (b) any returned value passed the
`isFinite` check, so a non-finite number is never returned. -/
theorem C2_gamma_guard_and_finiteness (prim : Prims R) (S K T : Option R) (r : R)
    (sigma : Option R) :
    ((S = none ∨ K = none ∨ T = none ∨ sigma = none ∨
        (∃ x, S = some x ∧ x ≤ 0) ∨ (∃ x, K = some x ∧ x ≤ 0) ∨
        (∃ x, T = some x ∧ x ≤ 0) ∨ (∃ x, sigma = some x ∧ x ≤ 0)) →
      BS.calculateGamma prim S K T r sigma = none) ∧
    (∀ g, BS.calculateGamma prim S K T r sigma = some g → prim.isFinite g = true) := by
  constructor
  · intro h
    cases S with
    | none => rfl
    | some s =>
      cases K with
      | none => rfl
      | some k =>
        cases T with
        | none => rfl
        | some t =>
          cases sigma with
          | none => rfl
          | some sg =>
            have hle : s ≤ 0 ∨ k ≤ 0 ∨ t ≤ 0 ∨ sg ≤ 0 := by
              rcases h with h | h | h | h | ⟨x, hx, hle⟩ | ⟨x, hx, hle⟩ |
                ⟨x, hx, hle⟩ | ⟨x, hx, hle⟩ <;>
                first
                  | exact absurd h (by simp)
                  | (injection hx with hx; subst hx; tauto)
            simp only [BS.calculateGamma, if_pos hle]
  · intro g hg
    cases S with
    | none => exact absurd hg (by simp [BS.calculateGamma])
    | some s =>
      cases K with
      | none => exact absurd hg (by simp [BS.calculateGamma])
      | some k =>
        cases T with
        | none => exact absurd hg (by simp [BS.calculateGamma])
        | some t =>
          cases sigma with
          | none => exact absurd hg (by simp [BS.calculateGamma])
          | some sg =>
            simp only [BS.calculateGamma] at hg
            by_cases hle : s ≤ 0 ∨ k ≤ 0 ∨ t ≤ 0 ∨ sg ≤ 0
            · rw [if_pos hle] at hg; exact absurd hg (by simp)
            · rw [if_neg hle] at hg
              simp only [BS.calculateGammaCore] at hg
              split at hg
              next hfin =>
                injection hg with hg
                rw [← hg]
                exact hfin
              next => exact absurd hg (by simp)

/-- C2 witness: at concrete inputs a non-positive spot yields `null`. -/
theorem C2_witness :
    ((∃ x, (some (-1 : ℚ)) = some x ∧ x ≤ 0) ∧
      BS.calculateGamma ratPrims (some (-1 : ℚ)) (some 1) (some 1) 0 (some 1) = none) :=
  ⟨⟨-1, rfl, by norm_num⟩,
    (C2_gamma_guard_and_finiteness ratPrims (some (-1 : ℚ)) (some 1) (some 1) 0
        (some 1)).1
      (Or.inr (Or.inr (Or.inr (Or.inr (Or.inl ⟨-1, rfl, by norm_num⟩)))))⟩

/-- C6: on positive inputs, the value computed by the source's
`calculateGamma` (instantiated with the genuine real `sqrt`/`log`/`exp`)
is exactly the spec's `φ(d1) / (spot · σ · √T)` with the spec's `d1` and
`φ`. -/
theorem C6_gamma_matches_spec_formula (S K T r sigma : ℝ) (hS : 0 < S) (hK : 0 < K)
    (hT : 0 < T) (hsig : 0 < sigma) :
    BS.calculateGamma realPrims (some S) (some K) (some T) r (some sigma) =
      some (specGamma S K T r sigma) := by
  have hguard : ¬(S ≤ 0 ∨ K ≤ 0 ∨ T ≤ 0 ∨ sigma ≤ 0) := by
    push_neg
    exact ⟨hS, hK, hT, hsig⟩
  simp only [BS.calculateGamma, if_neg hguard, BS.calculateGammaCore, realPrims]
  simp only [if_true]
  rw [mul_one]
  have hd1 : (Real.log (S / K) + (r + 0.5 * sigma * sigma) * T) / (sigma * Real.sqrt T) =
      specD1 S K T r sigma := by
    unfold specD1
    ring_nf
  rw [hd1]
  unfold specGamma specPhi
  congr 2
  ring_nf

/-- C6 witness: the theorem applied at spot = strike = T = σ = 1, r = 0. -/
theorem C6_witness :
    BS.calculateGamma realPrims (some (1 : ℝ)) (some 1) (some 1) 0 (some 1) =
      some (specGamma 1 1 1 0 1) :=
  C6_gamma_matches_spec_formula 1 1 1 0 1 one_pos one_pos one_pos one_pos

/-- Modelled from the spec: the flip-level / max-exposure aggregator of §4.4
is absent from src (`gexFlipLevel`, `maxGexStrike` and `maxGexValue` are only
declared in the part_000 `GammaResponse` interface; no code computes them, and
gamma.service.ts returns a `GammaResponse` without these fields).  A record of
the input it scans: one processed instrument's strike, option class and
magnitude exposure (the spec's logic is unit-agnostic). -/
structure StrikeRecord (R : Type) where
  strike : R
  option_type : String
  exposure : R
  deriving DecidableEq

/-- Modelled from the spec (§4.3): the net signed contribution of one record —
call exposure positive, put exposure negative. -/
def signedExposure (record : StrikeRecord R) : R :=
  if record.option_type = "call" then record.exposure
  else if record.option_type = "put" then -record.exposure
  else 0

/-- Modelled from the spec (§4.4): the net signed exposure at a strike,
summed across all records (hence all expirations) at that strike. -/
def netExposureAt (records : List (StrikeRecord R)) (s : R) : R :=
  ((records.filter (fun record => decide (record.strike = s))).map signedExposure).sum

/-- Ascending insertion into a sorted list (helper for the spec-modelled
ascending strike scan). -/
def insertAsc (x : R) : List R → List R
  | [] => [x]
  | y :: ys => if x ≤ y then x :: y :: ys else y :: insertAsc x ys

/-- Ascending insertion sort (helper for the spec-modelled strike scan). -/
def sortAsc : List R → List R
  | [] => []
  | x :: xs => insertAsc x (sortAsc xs)

/-- Modelled from the spec (§4.4): the distinct observed strikes in ascending
order. -/
def observedStrikes (records : List (StrikeRecord R)) : List R :=
  sortAsc ((records.map StrikeRecord.strike).dedup)

/-- Modelled from the spec (§4.4): the single strike-indexed table of net
signed exposure, in ascending strike order. -/
def strikeTable (records : List (StrikeRecord R)) : List (R × R) :=
  (observedStrikes records).map (fun s => (s, netExposureAt records s))

/-- Modelled from the spec (§4.4): two consecutive net exposures bracket a
sign change. -/
def cross (n₁ n₂ : R) : Prop := (0 < n₁ ∧ n₂ < 0) ∨ (n₁ < 0 ∧ 0 < n₂)

instance (n₁ n₂ : R) : Decidable (cross n₁ n₂) :=
  inferInstanceAs (Decidable ((0 < n₁ ∧ n₂ < 0) ∨ (n₁ < 0 ∧ 0 < n₂)))

/-- Modelled from the spec (§4.4): scan the table in ascending strike order
and return the lower strike of the first adjacent pair bracketing a sign
change; `none` when the sign never changes. -/
def flipScan : List (R × R) → Option R
  | (s₁, n₁) :: (s₂, n₂) :: rest =>
      if cross n₁ n₂ then some s₁ else flipScan ((s₂, n₂) :: rest)
  | _ => none

/-- Modelled from the spec (§4.4): the GEX flip level of a record set. -/
def gexFlipLevel (records : List (StrikeRecord R)) : Option R :=
  flipScan (strikeTable records)

/-- Modelled from the spec (§4.4): keep the later candidate only when its
absolute net exposure strictly exceeds the earlier one, so the earlier
(lower-strike) entry wins ties. -/
def maxGexPick (p : R × R) : Option (R × R) → R × R
  | none => p
  | some q => if |q.2| > |p.2| then q else p

/-- Modelled from the spec (§4.4): the table entry of largest absolute net
exposure, the earliest (lowest strike, the table being ascending) winning
ties. -/
def maxGexEntry : List (R × R) → Option (R × R)
  | [] => none
  | p :: rest => some (maxGexPick p (maxGexEntry rest))

/-- Modelled from the spec (§4.4): the strike with maximum `|net GEX|`. -/
def maxGexStrike (records : List (StrikeRecord R)) : Option R :=
  (maxGexEntry (strikeTable records)).map Prod.fst

/-- Modelled from the spec (§4.4): the net signed exposure at
`maxGexStrike`, sign kept; 0 when there are no records. -/
def maxGexValue (records : List (StrikeRecord R)) : R :=
  ((maxGexEntry (strikeTable records)).map Prod.snd).getD 0

theorem mem_insertAsc {x a : R} {l : List R} : a ∈ insertAsc x l ↔ a = x ∨ a ∈ l := by
  induction l with
  | nil => simp [insertAsc]
  | cons y ys ih =>
    simp only [insertAsc]
    split
    · simp [List.mem_cons]
    · simp only [List.mem_cons, ih]
      tauto

theorem insertAsc_sorted {x : R} {l : List R} (hl : l.Pairwise (· ≤ ·)) :
    (insertAsc x l).Pairwise (· ≤ ·) := by
  induction l with
  | nil => simp [insertAsc]
  | cons y ys ih =>
    rcases List.pairwise_cons.mp hl with ⟨hy, hys⟩
    simp only [insertAsc]
    split
    next hxy =>
      refine List.pairwise_cons.mpr ⟨?_, hl⟩
      intro b hb
      rcases List.mem_cons.mp hb with rfl | hb
      · exact hxy
      · exact le_trans hxy (hy b hb)
    next hxy =>
      refine List.pairwise_cons.mpr ⟨?_, ih hys⟩
      intro b hb
      rcases mem_insertAsc.mp hb with rfl | hb
      · exact le_of_not_le hxy
      · exact hy b hb

theorem insertAsc_perm (x : R) (l : List R) : List.Perm (insertAsc x l) (x :: l) := by
  induction l with
  | nil => rfl
  | cons y ys ih =>
    simp only [insertAsc]
    split
    · rfl
    · exact (List.Perm.cons y ih).trans (List.Perm.swap x y ys)

theorem sortAsc_perm (l : List R) : List.Perm (sortAsc l) l := by
  induction l with
  | nil => rfl
  | cons x xs ih => exact (insertAsc_perm x (sortAsc xs)).trans (List.Perm.cons x ih)

theorem sortAsc_sorted (l : List R) : (sortAsc l).Pairwise (· ≤ ·) := by
  induction l with
  | nil => simp [sortAsc]
  | cons x xs ih => exact insertAsc_sorted ih

theorem observedStrikes_sorted_lt (records : List (StrikeRecord R)) :
    (observedStrikes records).Pairwise (· < ·) := by
  have hle := sortAsc_sorted ((records.map StrikeRecord.strike).dedup)
  have hnd : (observedStrikes records).Nodup :=
    ((sortAsc_perm _).nodup_iff).mpr (List.nodup_dedup _)
  exact (hle.and hnd).imp (fun h => lt_of_le_of_ne h.1 h.2)

theorem mem_observedStrikes {records : List (StrikeRecord R)} {s : R} :
    s ∈ observedStrikes records ↔ s ∈ records.map StrikeRecord.strike := by
  rw [observedStrikes, (sortAsc_perm _).mem_iff, List.mem_dedup]

theorem observedStrikes_ne_nil {records : List (StrikeRecord R)} (h : records ≠ []) :
    observedStrikes records ≠ [] := by
  intro h0
  have hperm := sortAsc_perm ((records.map StrikeRecord.strike).dedup)
  rw [observedStrikes] at h0
  rw [h0] at hperm
  have hd : (records.map StrikeRecord.strike).dedup = [] := hperm.symm.eq_nil
  have hm : records.map StrikeRecord.strike = [] := (List.dedup_eq_nil _).mp hd
  exact h (List.map_eq_nil_iff.mp hm)

theorem strikeTable_pairwise (records : List (StrikeRecord R)) :
    (strikeTable records).Pairwise (fun p q : R × R => p.1 < q.1) := by
  rw [strikeTable, List.pairwise_map]
  exact observedStrikes_sorted_lt records

theorem maxGexEntry_spec (l : List (R × R))
    (hpw : l.Pairwise (fun p q : R × R => p.1 < q.1)) (hne : l ≠ []) :
    ∃ p, maxGexEntry l = some p ∧ p ∈ l ∧ (∀ q ∈ l, |q.2| ≤ |p.2|) ∧
      (∀ q ∈ l, |q.2| = |p.2| → p.1 ≤ q.1) := by
  induction l with
  | nil => exact absurd rfl hne
  | cons a rest ih =>
    rcases List.pairwise_cons.mp hpw with ⟨ha, hrest⟩
    cases rest with
    | nil =>
      refine ⟨a, rfl, List.mem_cons_self _ _, ?_, ?_⟩
      · intro q hq
        rcases List.mem_cons.mp hq with rfl | hq
        · exact le_refl _
        · exact absurd hq (List.not_mem_nil _)
      · intro q hq _
        rcases List.mem_cons.mp hq with rfl | hq
        · exact le_refl _
        · exact absurd hq (List.not_mem_nil _)
    | cons b rest2 =>
      obtain ⟨p, hpeq, hpmem, hpmax, hptie⟩ := ih hrest (by simp)
      by_cases hgt : |p.2| > |a.2|
      · refine ⟨p, ?_, List.mem_cons_of_mem _ hpmem, ?_, ?_⟩
        · show some (maxGexPick a (maxGexEntry (b :: rest2))) = some p
          rw [hpeq]
          show some (if |p.2| > |a.2| then p else a) = some p
          rw [if_pos hgt]
        · intro q hq
          rcases List.mem_cons.mp hq with rfl | hq
          · exact le_of_lt hgt
          · exact hpmax q hq
        · intro q hq htieq
          rcases List.mem_cons.mp hq with rfl | hq
          · exact absurd htieq (ne_of_lt hgt)
          · exact hptie q hq htieq
      · refine ⟨a, ?_, List.mem_cons_self _ _, ?_, ?_⟩
        · show some (maxGexPick a (maxGexEntry (b :: rest2))) = some a
          rw [hpeq]
          show some (if |p.2| > |a.2| then p else a) = some a
          rw [if_neg hgt]
        · intro q hq
          rcases List.mem_cons.mp hq with rfl | hq
          · exact le_refl _
          · exact le_trans (hpmax q hq) (le_of_not_lt hgt)
        · intro q hq _
          rcases List.mem_cons.mp hq with rfl | hq
          · exact le_refl _
          · exact le_of_lt (ha q hq)

/-- C5 (spec-modelled): `maxGexStrike` is an observed strike whose absolute
net signed exposure is maximal over all observed strikes, the lowest strike
winning ties, and `maxGexValue` is that strike's net signed exposure with its
sign kept. -/
theorem C5_max_gex (records : List (StrikeRecord R)) (h : records ≠ []) :
    ∃ s, maxGexStrike records = some s ∧ s ∈ observedStrikes records ∧
      maxGexValue records = netExposureAt records s ∧
      (∀ t ∈ observedStrikes records,
        |netExposureAt records t| ≤ |netExposureAt records s|) ∧
      (∀ t ∈ observedStrikes records,
        |netExposureAt records t| = |netExposureAt records s| → s ≤ t) := by
  have htne : strikeTable records ≠ [] := by
    rw [strikeTable]
    intro h0
    exact observedStrikes_ne_nil h (List.map_eq_nil_iff.mp h0)
  obtain ⟨p, hpeq, hpmem, hpmax, hptie⟩ :=
    maxGexEntry_spec (strikeTable records) (strikeTable_pairwise records) htne
  rw [strikeTable] at hpmem
  obtain ⟨s, hs, hsp⟩ := List.mem_map.mp hpmem
  refine ⟨s, ?_, hs, ?_, ?_, ?_⟩
  · rw [maxGexStrike, hpeq, ← hsp]
    rfl
  · rw [maxGexValue, hpeq, ← hsp]
    rfl
  · intro t ht
    have := hpmax (t, netExposureAt records t)
      (by rw [strikeTable]; exact List.mem_map_of_mem _ ht)
    rw [← hsp] at this
    exact this
  · intro t ht htieq
    have := hptie (t, netExposureAt records t)
      (by rw [strikeTable]; exact List.mem_map_of_mem _ ht)
    rw [← hsp] at this
    exact this htieq

/-- Two concrete strike records with distinct strikes. -/
def w5Records : List (StrikeRecord ℚ) :=
  [{ strike := 50, option_type := "call", exposure := 2 },
   { strike := 60, option_type := "put", exposure := 3 }]

/-- C5 witness: the theorem applied to a concrete two-record set. -/
theorem C5_witness :
    (w5Records ≠ [] ∧
      ∃ s, maxGexStrike w5Records = some s ∧ s ∈ observedStrikes w5Records ∧
        maxGexValue w5Records = netExposureAt w5Records s ∧
        (∀ t ∈ observedStrikes w5Records,
          |netExposureAt w5Records t| ≤ |netExposureAt w5Records s|) ∧
        (∀ t ∈ observedStrikes w5Records,
          |netExposureAt w5Records t| = |netExposureAt w5Records s| → s ≤ t)) :=
  ⟨by decide, C5_max_gex w5Records (by decide)⟩

theorem flipScan_eq_none {l : List (R × R)}
    (h : List.Chain' (fun p q : R × R => ¬ cross p.2 q.2) l) : flipScan l = none := by
  induction l with
  | nil => rfl
  | cons a rest ih =>
    cases rest with
    | nil =>
      obtain ⟨s₁, n₁⟩ := a
      rfl
    | cons b rest2 =>
      rcases List.chain'_cons.mp h with ⟨hab, hrest⟩
      obtain ⟨s₁, n₁⟩ := a
      obtain ⟨s₂, n₂⟩ := b
      simp only [flipScan, if_neg hab]
      exact ih hrest

theorem flipScan_append {pre : List (R × R)} {a : R × R} {tl : List (R × R)}
    (h : List.Chain' (fun p q : R × R => ¬ cross p.2 q.2) (pre ++ [a])) :
    flipScan (pre ++ a :: tl) = flipScan (a :: tl) := by
  induction pre with
  | nil => rfl
  | cons x pre2 ih =>
    cases pre2 with
    | nil =>
      rcases List.chain'_cons.mp h with ⟨hxa, _⟩
      obtain ⟨s₁, n₁⟩ := x
      obtain ⟨s₂, n₂⟩ := a
      simp only [List.cons_append, List.nil_append, flipScan, if_neg hxa]
    | cons y pre3 =>
      rcases List.chain'_cons.mp h with ⟨hxy, hrest⟩
      obtain ⟨s₁, n₁⟩ := x
      obtain ⟨s₂, n₂⟩ := y
      simp only [List.cons_append] at hrest ⊢
      simp only [flipScan, if_neg hxy]
      exact ih hrest

/-- C3 (amended, spec-modelled): (a) when the net signed exposure has the
same strict sign at every observed strike the flip level is `none`; (b) when
the table decomposes as `pre ++ (A, nA) :: (B, nB) :: suf` with `nA > 0`,
`nB < 0` and no sign change among the strikes up to `A` — that is, `(A, B)`
is the first sign change met scanning strikes in ascending order — the flip
level is `A`.  The first-crossing proviso in (b) is what the counterexample
forces: with several sign changes the scan commits to the earliest one. -/
theorem C3_flip_level (records : List (StrikeRecord R)) :
    (((∀ s ∈ observedStrikes records, 0 < netExposureAt records s) ∨
        (∀ s ∈ observedStrikes records, netExposureAt records s < 0)) →
      gexFlipLevel records = none) ∧
    (∀ (pre suf : List (R × R)) (A B nA nB : R),
      strikeTable records = pre ++ (A, nA) :: (B, nB) :: suf →
      List.Chain' (fun p q : R × R => ¬ cross p.2 q.2) (pre ++ [(A, nA)]) →
      0 < nA → nB < 0 → gexFlipLevel records = some A) := by
  constructor
  · intro hsame
    have hall : ∀ p ∈ strikeTable records, ∀ q ∈ strikeTable records,
        ¬ cross p.2 q.2 := by
      intro p hp q hq
      rw [strikeTable] at hp hq
      obtain ⟨sp, hsp, hpe⟩ := List.mem_map.mp hp
      obtain ⟨sq, hsq, hqe⟩ := List.mem_map.mp hq
      have hp2 : p.2 = netExposureAt records sp := by rw [← hpe]
      have hq2 : q.2 = netExposureAt records sq := by rw [← hqe]
      intro hcross
      unfold cross at hcross
      rw [hp2, hq2] at hcross
      rcases hsame with hpos | hneg
      · rcases hcross with ⟨_, hc⟩ | ⟨hc, _⟩
        · exact absurd hc (not_lt.mpr (le_of_lt (hpos sq hsq)))
        · exact absurd hc (not_lt.mpr (le_of_lt (hpos sp hsp)))
      · rcases hcross with ⟨hc, _⟩ | ⟨_, hc⟩
        · exact absurd hc (not_lt.mpr (le_of_lt (hneg sp hsp)))
        · exact absurd hc (not_lt.mpr (le_of_lt (hneg sq hsq)))
    exact flipScan_eq_none (List.pairwise_of_forall_mem_list hall).chain'
  · intro pre suf A B nA nB htab hchain hA hB
    rw [gexFlipLevel, htab, flipScan_append hchain]
    simp only [flipScan]
    rw [if_pos (show cross nA nB from Or.inl ⟨hA, hB⟩)]

/-- Alternating net signs at strikes 1, 2, 3, 4: +1, −1, +1, −1. -/
def w3Records : List (StrikeRecord ℚ) :=
  [{ strike := 1, option_type := "call", exposure := 1 },
   { strike := 2, option_type := "put", exposure := 1 },
   { strike := 3, option_type := "call", exposure := 1 },
   { strike := 4, option_type := "put", exposure := 1 }]

/-- C3 counterexample: in `w3Records` the net exposure is positive at strike
3 and negative at the next observed strike 4, yet the ascending scan commits
to the earlier sign change and yields flip level 1, not 3 — the claim's
second clause is false as stated when an earlier crossing exists. -/
theorem C3_counterexample :
    0 < netExposureAt w3Records 3 ∧ netExposureAt w3Records 4 < 0 ∧
    observedStrikes w3Records = [1, 2, 3, 4] ∧
    gexFlipLevel w3Records = some 1 ∧ (1 : ℚ) ≠ 3 := by
  refine ⟨by decide, by decide, by decide, by decide, by decide⟩

/-- All-positive net exposure at both strikes. -/
def w3PosRecords : List (StrikeRecord ℚ) :=
  [{ strike := 1, option_type := "call", exposure := 1 },
   { strike := 2, option_type := "call", exposure := 2 }]

/-- The spec's own §8 scenario: +5 at 48000, −7 at 52000. -/
def w3FlipRecords : List (StrikeRecord ℚ) :=
  [{ strike := 48000, option_type := "call", exposure := 5 },
   { strike := 52000, option_type := "put", exposure := 7 }]

/-- C3 witness: both clauses of the theorem applied to concrete record
sets — same-sign records give `none`, and the spec's §8 two-strike scenario
gives flip level 48000. -/
theorem C3_witness :
    gexFlipLevel w3PosRecords = none ∧ gexFlipLevel w3FlipRecords = some 48000 :=
  ⟨(C3_flip_level w3PosRecords).1 (Or.inl (by decide)),
   (C3_flip_level w3FlipRecords).2 [] [] 48000 52000 5 (-7) (by decide)
     (List.chain'_singleton _) (by decide) (by decide)⟩

end NetGex
